import Mathlib

/-!
# Embedded LRU cache: a shallow embedding of `cache.c` and its headers

The C sources (`Inc/cache/cache_config.h`, `Inc/cache/cache_internal.h`,
`Src/cache/cache.c`) are transcribed into Lean definitions, and the properties
of the ranking algorithm, of victim selection, of the lookup scan and of the
address decoder are proved about these definitions.

Conventions of the embedding.

* `uint8_t` and `uint32_t` values are natural numbers; a store into an 8-bit
  cell reduces modulo `2 ^ 8` explicitly.
* `CACHE_DATA_PTR` is a raw pointer onto RAM that is indexed by a set number, so
  the store is a function from set numbers to sets.
* The arrays `ways` and `lru_counters` have the declared length
  `CACHE_NUM_WAYS`; they are functions on `Fin CACHE_NUM_WAYS`, and a way index
  is an element of `Fin CACHE_NUM_WAYS` (an index outside the array is undefined
  behaviour in C and is excluded by the type).
* A function that writes nothing still returns the state it was called in, so
  that its frame can be stated.
-/

namespace LruCache

/-! ## `cache_config.h` -/

/-- Line size defined for the cache: `#define CACHE_LINE_SIZE 64`. -/
abbrev CACHE_LINE_SIZE : Nat := 64

/-- Associativity: `#define CACHE_NUM_WAYS 04`. -/
abbrev CACHE_NUM_WAYS : Nat := 4

/-- Total cache size: `#define CACHE_SIZE 8*1024`. -/
abbrev CACHE_SIZE : Nat := 8 * 1024

/-- The macro `CACHE_NUM_LINES`, `(CACHE_SIZE / CACHE_LINE_SIZE)`; the body of
`CACHE_SIZE` is pasted without brackets, as the preprocessor does. -/
abbrev CACHE_NUM_LINES : Nat := 8 * 1024 / CACHE_LINE_SIZE

/-- The macro `CACHE_NUM_SET`, `(CACHE_NUM_LINES / CACHE_NUM_WAYS)`. -/
abbrev CACHE_NUM_SET : Nat := CACHE_NUM_LINES / CACHE_NUM_WAYS

/-- Offset width: `#define CACHE_OFFSET_BITS 06`. -/
abbrev CACHE_OFFSET_BITS : Nat := 6

/-- The macro `CACHE_OFFSET_MASK`, `((1<<CACHE_OFFSET_BITS)-1)`. -/
abbrev CACHE_OFFSET_MASK : Nat := (1 <<< CACHE_OFFSET_BITS) - 1

/-- Set index width: `#define CACHE_SET_INDEX_BITS 05`. -/
abbrev CACHE_SET_INDEX_BITS : Nat := 5

/-- The macro `CACHE_SET_INDEX_MASK`, `((1<<CACHE_SET_INDEX_MASK)-1)`. The body
names the macro itself; the preprocessor does not expand a macro inside its own
expansion, so the inner name is left as a plain identifier that no header
declares. Its value is the parameter `inner`. The result is converted to
`uint32_t` where it is used, hence the reduction modulo `2 ^ 32`. -/
def CACHE_SET_INDEX_MASK (inner : Nat) : Nat := ((1 <<< inner) - 1) % 2 ^ 32

/-- Tag width: `#define CACHE_TAG_BITS 21`. -/
abbrev CACHE_TAG_BITS : Nat := 21

/-- First flash address: `#define CACHE_FLASH_START 0x08000000`. -/
abbrev CACHE_FLASH_START : Nat := 0x08000000

/-- The macro `CACHE_FLASH_END`, `0x0807FFFF`. -/
abbrev CACHE_FLASH_END : Nat := 0x0807FFFF

/-! ## `cache_internal.h` -/

/-- The struct `cache_line_t`: `valid` is a `uint8_t`, `tag` a `uint32_t`,
`data` an array of `CACHE_LINE_SIZE` bytes. -/
structure cache_line_t where
  valid : Nat
  tag : Nat
  data : Fin CACHE_LINE_SIZE → Nat

/-- The struct `cache_set_t`: `CACHE_NUM_WAYS` lines and one `uint8_t` recency
counter per way. -/
structure cache_set_t where
  ways : Fin CACHE_NUM_WAYS → cache_line_t
  lru_counters : Fin CACHE_NUM_WAYS → Nat

/-- The struct `cache_stats_t`: four `uint32_t` counters. -/
structure cache_stats_t where
  total_accesses : Nat
  hits : Nat
  misses : Nat
  evictions : Nat
deriving DecidableEq

/-- The mutable state of the program: the memory behind `CACHE_DATA_PTR`, read
as an array of sets, and the global `g_cache_stats`. -/
structure CacheState where
  CACHE_DATA_PTR : Nat → cache_set_t
  g_cache_stats : cache_stats_t

/-- The function `cache_get_offset`: `addr & CACHE_OFFSET_MASK`. -/
def cache_get_offset (addr : Nat) : Nat := addr &&& CACHE_OFFSET_MASK

/-- The function `cache_get_set_index`:
`(addr >> CACHE_OFFSET_BITS) & CACHE_SET_INDEX_MASK`, with the value of the
undeclared inner identifier of the mask as the parameter `inner`. -/
def cache_get_set_index (inner : Nat) (addr : Nat) : Nat :=
  (addr >>> CACHE_OFFSET_BITS) &&& CACHE_SET_INDEX_MASK inner

/-- The function `cache_get_tag`:
`addr >> (CACHE_OFFSET_BITS + CACHE_SET_INDEX_BITS)`. -/
def cache_get_tag (addr : Nat) : Nat :=
  addr >>> (CACHE_OFFSET_BITS + CACHE_SET_INDEX_BITS)

/-- The function `cache_align_addr`: `addr & ~CACHE_OFFSET_MASK`. The mask is an
`int`; its complement converted to `uint32_t` is `2 ^ 32 - 1 - mask`. -/
def cache_align_addr (addr : Nat) : Nat :=
  addr &&& (2 ^ 32 - 1 - CACHE_OFFSET_MASK)

/-- The function `cache_is_cacheable`:
`(addr >= CACHE_FLASH_START) && (addr < CACHE_FLASH_END)`. -/
def cache_is_cacheable (addr : Nat) : Bool :=
  decide (addr ≥ CACHE_FLASH_START) && decide (addr < CACHE_FLASH_END)

/-! ## Stores into the memory behind `CACHE_DATA_PTR` -/

/-- The store `CACHE_DATA_PTR[set].ways[way].valid = v`. -/
def store_valid (st : CacheState) (set : Nat) (way : Fin CACHE_NUM_WAYS) (v : Nat) :
    CacheState :=
  { st with
    CACHE_DATA_PTR := fun s =>
      if s = set then
        { st.CACHE_DATA_PTR s with
          ways := fun w =>
            if w = way then { (st.CACHE_DATA_PTR s).ways w with valid := v % 2 ^ 8 }
            else (st.CACHE_DATA_PTR s).ways w }
      else st.CACHE_DATA_PTR s }

/-- The store `CACHE_DATA_PTR[set].ways[way].tag = v`. -/
def store_tag (st : CacheState) (set : Nat) (way : Fin CACHE_NUM_WAYS) (v : Nat) :
    CacheState :=
  { st with
    CACHE_DATA_PTR := fun s =>
      if s = set then
        { st.CACHE_DATA_PTR s with
          ways := fun w =>
            if w = way then { (st.CACHE_DATA_PTR s).ways w with tag := v % 2 ^ 32 }
            else (st.CACHE_DATA_PTR s).ways w }
      else st.CACHE_DATA_PTR s }

/-- The store `CACHE_DATA_PTR[set].lru_counters[way] = v` into a `uint8_t` cell. -/
def store_lru (st : CacheState) (set : Nat) (way : Fin CACHE_NUM_WAYS) (v : Nat) :
    CacheState :=
  { st with
    CACHE_DATA_PTR := fun s =>
      if s = set then
        { st.CACHE_DATA_PTR s with
          lru_counters := fun w =>
            if w = way then v % 2 ^ 8 else (st.CACHE_DATA_PTR s).lru_counters w }
      else st.CACHE_DATA_PTR s }

/-! ## `cache.c` -/

/-- The body of the inner loop of `cache_init` for one `set` and one `way`:
the three stores `valid = 0`, `tag = 0`, `lru_counters[way] = way`. -/
def cache_init_way (set : Nat) (st : CacheState) (way : Fin CACHE_NUM_WAYS) : CacheState :=
  store_lru (store_tag (store_valid st set way 0) set way 0) set way way.val

/-- The body of the outer loop of `cache_init` for one `set`: the loop
`for (way = 0; way < CACHE_NUM_WAYS; way++)`. -/
def cache_init_set (st : CacheState) (set : Nat) : CacheState :=
  (List.finRange CACHE_NUM_WAYS).foldl (cache_init_way set) st

/-- The function `cache_init`. The loop bound `CACHE_NUM_SETS` is not defined by
any header (`cache_config.h` defines `CACHE_NUM_SET`); it is the parameter
`CACHE_NUM_SETS`. After the loops, `memset` zeroes `g_cache_stats`. -/
def cache_init (CACHE_NUM_SETS : Nat) (st : CacheState) : CacheState :=
  { (List.range CACHE_NUM_SETS).foldl cache_init_set st with
    g_cache_stats := ⟨0, 0, 0, 0⟩ }

/-- The loop of `cache_lookup` over the ways still to be visited: the first
valid way whose tag is `tag` is returned, and `-1` when the ways are
exhausted. -/
def cache_lookup_scan (s : cache_set_t) (tag : Nat) : List (Fin CACHE_NUM_WAYS) → Int
  | [] => -1
  | way :: rest =>
    if (s.ways way).valid ≠ 0 then
      if (s.ways way).tag = tag then (way.val : Int)
      else cache_lookup_scan s tag rest
    else cache_lookup_scan s tag rest

/-- The function `cache_lookup`: the returned `int`, and the state after the
call. The body contains no store, so the state is the one it was called in. -/
def cache_lookup (inner : Nat) (st : CacheState) (addr : Nat) : Int × CacheState :=
  let set_index := cache_get_set_index inner addr
  let tag := cache_get_tag addr
  (cache_lookup_scan (st.CACHE_DATA_PTR set_index) tag (List.finRange CACHE_NUM_WAYS), st)

/-- One iteration of the loop of `cache_update_lru`:
`if (lru_counters[way] > old_counter) lru_counters[way] -= 1;`. The decrement is
computed in `int` and stored into a `uint8_t`. -/
def cache_update_lru_step (set : Nat) (old_counter : Nat) (st : CacheState)
    (way : Fin CACHE_NUM_WAYS) : CacheState :=
  if (st.CACHE_DATA_PTR set).lru_counters way > old_counter then
    store_lru st set way ((st.CACHE_DATA_PTR set).lru_counters way + 2 ^ 8 - 1)
  else st

/-- The function `cache_update_lru`. -/
def cache_update_lru (st : CacheState) (set : Nat) (accessed_way : Fin CACHE_NUM_WAYS) :
    CacheState :=
  let old_counter := (st.CACHE_DATA_PTR set).lru_counters accessed_way
  let st1 := (List.finRange CACHE_NUM_WAYS).foldl (cache_update_lru_step set old_counter) st
  store_lru st1 set accessed_way 3

/-- The loop of `cache_find_lru_way` over the ways still to be visited. When the
ways are exhausted the function reaches `CACHE_ASSERT(0)`, which expands to
`if(!(0)) while(1);` and never returns: the result is `none`. -/
def cache_find_lru_way_scan (s : cache_set_t) : List (Fin CACHE_NUM_WAYS) →
    Option (Fin CACHE_NUM_WAYS)
  | [] => none
  | way :: rest =>
    if s.lru_counters way = 0 then some way else cache_find_lru_way_scan s rest

/-- The function `cache_find_lru_way`: `some way` when it returns `way`, `none`
when it ends in the endless loop of `CACHE_ASSERT(0)`. -/
def cache_find_lru_way (st : CacheState) (set : Nat) : Option (Fin CACHE_NUM_WAYS) :=
  cache_find_lru_way_scan (st.CACHE_DATA_PTR set) (List.finRange CACHE_NUM_WAYS)

/-! ## Vocabulary of the properties -/

/-- A rank array is a permutation of `0 .. CACHE_NUM_WAYS - 1`: every rank is
below `CACHE_NUM_WAYS` and no two ways share a rank. -/
def IsRankPerm (r : Fin CACHE_NUM_WAYS → Nat) : Prop :=
  (∀ w, r w < CACHE_NUM_WAYS) ∧ ∀ w1 w2, r w1 = r w2 → w1 = w2

instance (r : Fin CACHE_NUM_WAYS → Nat) : Decidable (IsRankPerm r) := by
  unfold IsRankPerm; infer_instance

/-- The rank array of set `set` in state `st`. -/
def ranks (st : CacheState) (set : Nat) : Fin CACHE_NUM_WAYS → Nat :=
  (st.CACHE_DATA_PTR set).lru_counters

/-- The value the loop of `cache_update_lru` leaves in a counter that held `x`,
for the saved `old_counter`. -/
def slide (old_counter x : Nat) : Nat :=
  if x > old_counter then (x + 2 ^ 8 - 1) % 2 ^ 8 else x

/-- The state after the calls `cache_update_lru(set, w)` for the ways `w` of
`seq`, made in the order of the list. -/
def promote_all (st : CacheState) (set : Nat) (seq : List (Fin CACHE_NUM_WAYS)) :
    CacheState :=
  seq.foldl (fun acc w => cache_update_lru acc set w) st

/-- Way `w` of the set `s` is a match for `tag` in the scan of `cache_lookup`:
its line is valid and carries the tag. -/
def line_matches (s : cache_set_t) (tag : Nat) (w : Fin CACHE_NUM_WAYS) : Prop :=
  (s.ways w).valid ≠ 0 ∧ (s.ways w).tag = tag

instance (s : cache_set_t) (tag : Nat) (w : Fin CACHE_NUM_WAYS) :
    Decidable (line_matches s tag w) := by
  unfold line_matches; infer_instance

/-- The state `st2` differs from `st1` at most in the rank array of set `set`:
the lines of every set, the rank arrays of the other sets and the statistics
are the same. -/
def same_outside_ranks (set : Nat) (st1 st2 : CacheState) : Prop :=
  (∀ s, (st2.CACHE_DATA_PTR s).ways = (st1.CACHE_DATA_PTR s).ways) ∧
  (∀ s, s ≠ set → (st2.CACHE_DATA_PTR s).lru_counters = (st1.CACHE_DATA_PTR s).lru_counters) ∧
  st2.g_cache_stats = st1.g_cache_stats

/-- A call of one of the three functions of `cache.h` that act on an initialised
cache: `cache_lookup(addr)`, `cache_update_lru(set, accessed_way)` or
`cache_find_lru_way(set)`. -/
inductive cache_call where
  | lookup (addr : Nat)
  | update_lru (set : Nat) (accessed_way : Fin CACHE_NUM_WAYS)
  | find_lru_way (set : Nat)

/-- The state after one call; `none` when the call does not return, which
happens only for `cache_find_lru_way` in the endless loop of `CACHE_ASSERT(0)`. -/
def run_call (inner : Nat) (st : CacheState) : cache_call → Option CacheState
  | cache_call.lookup addr => some (cache_lookup inner st addr).2
  | cache_call.update_lru set accessed_way => some (cache_update_lru st set accessed_way)
  | cache_call.find_lru_way set =>
    match cache_find_lru_way st set with
    | some _ => some st
    | none => none

/-- The state after a finite sequence of calls, made in the order of the list;
`none` when one of the calls does not return. -/
def run_calls (inner : Nat) (st : CacheState) : List cache_call → Option CacheState
  | [] => some st
  | c :: rest =>
    match run_call inner st c with
    | some st1 => run_calls inner st1 rest
    | none => none

/-- The address rebuilt from a tag, a set index and an offset, in `uint32_t`
arithmetic: `(tag << 11) | (set_index << 6) | offset`, the shift counts being
`CACHE_OFFSET_BITS + CACHE_SET_INDEX_BITS` and `CACHE_OFFSET_BITS`. -/
def recompose (tag set_index offset : Nat) : Nat :=
  ((tag <<< (CACHE_OFFSET_BITS + CACHE_SET_INDEX_BITS)) % 2 ^ 32) |||
    ((set_index <<< CACHE_OFFSET_BITS) % 2 ^ 32) ||| offset

/-- A line that holds nothing: not valid, tag `0`, all data bytes `0`. -/
def empty_line : cache_line_t := ⟨0, 0, fun _ => 0⟩

/-- A state for concrete evaluation: every set has the rank array `r`, no line
is valid and the statistics are zero. -/
def state_of_ranks (r : Fin CACHE_NUM_WAYS → Nat) : CacheState :=
  ⟨fun _ => ⟨fun _ => empty_line, r⟩, ⟨0, 0, 0, 0⟩⟩

/-- A valid line with tag `t` and all data bytes `0`. -/
def line_of_tag (t : Nat) : cache_line_t := ⟨1, t, fun _ => 0⟩

/-- A state for concrete evaluation: every set has the lines `lines` and the
rank array `r`; the statistics are `stats`. -/
def state_of_lines (lines : Fin CACHE_NUM_WAYS → cache_line_t)
    (r : Fin CACHE_NUM_WAYS → Nat) (stats : cache_stats_t) : CacheState :=
  ⟨fun _ => ⟨lines, r⟩, stats⟩

/-! ## The loops, way by way -/

theorem slide_of_lt (old x : Nat) (hx : x < 256) :
    slide old x = if x > old then x - 1 else x := by
  have h8 : (2 : Nat) ^ 8 = 256 := by norm_num
  unfold slide
  rw [h8]
  split_ifs <;> omega

theorem finRange_ways : List.finRange CACHE_NUM_WAYS = [0, 1, 2, 3] := rfl

theorem nodup_finRange_ways : (List.finRange CACHE_NUM_WAYS).Nodup :=
  List.nodup_finRange _

theorem ranks_store_lru (st : CacheState) (set : Nat) (way w : Fin CACHE_NUM_WAYS) (v : Nat) :
    ranks (store_lru st set way v) set w = if w = way then v % 2 ^ 8 else ranks st set w := by
  simp [ranks, store_lru]

theorem ranks_step (set old : Nat) (st : CacheState) (way w : Fin CACHE_NUM_WAYS) :
    ranks (cache_update_lru_step set old st way) set w
      = if w = way then slide old (ranks st set w) else ranks st set w := by
  unfold cache_update_lru_step slide
  by_cases hw : w = way
  · subst hw
    by_cases hgt : (st.CACHE_DATA_PTR set).lru_counters w > old
    · simp [ranks, store_lru, hgt]
    · simp [ranks, hgt]
  · by_cases hgt : (st.CACHE_DATA_PTR set).lru_counters way > old
    · simp [ranks, store_lru, hgt, hw]
    · simp [ranks, hgt, hw]

theorem ranks_loop (set old : Nat) (w : Fin CACHE_NUM_WAYS) :
    ∀ (l : List (Fin CACHE_NUM_WAYS)) (st : CacheState), l.Nodup →
      ranks (l.foldl (cache_update_lru_step set old) st) set w
        = if w ∈ l then slide old (ranks st set w) else ranks st set w := by
  intro l
  induction l with
  | nil => intro st _; simp
  | cons way rest ih =>
    intro st hnd
    have hnot : way ∉ rest := (List.nodup_cons.mp hnd).1
    have hrest : rest.Nodup := (List.nodup_cons.mp hnd).2
    rw [List.foldl_cons, ih _ hrest, ranks_step]
    by_cases hw : w = way
    · subst hw
      simp [hnot]
    · simp [hw]

/-- Closed form of the rank array after `cache_update_lru`. -/
theorem ranks_update_lru (st : CacheState) (set : Nat) (a w : Fin CACHE_NUM_WAYS) :
    ranks (cache_update_lru st set a) set w
      = if w = a then 3 else slide (ranks st set a) (ranks st set w) := by
  unfold cache_update_lru
  simp only [ranks_store_lru]
  by_cases hw : w = a
  · simp [hw]
  · rw [if_neg hw, if_neg hw, ranks_loop _ _ _ _ _ nodup_finRange_ways]
    simp [List.mem_finRange, ranks]

/-- A rank array that is a permutation has a way of every rank below
`CACHE_NUM_WAYS`. -/
theorem IsRankPerm.exists_rank {r : Fin CACHE_NUM_WAYS → Nat} (h : IsRankPerm r)
    (k : Nat) (hk : k < CACHE_NUM_WAYS) : ∃ w, r w = k := by
  obtain ⟨hb, hinj⟩ := h
  let f : Fin CACHE_NUM_WAYS → Fin CACHE_NUM_WAYS := fun w => ⟨r w, hb w⟩
  have hf : Function.Injective f := by
    intro w1 w2 h12
    exact hinj w1 w2 (congrArg Fin.val h12)
  obtain ⟨w, hw⟩ := (Finite.injective_iff_surjective.mp hf) ⟨k, hk⟩
  exact ⟨w, congrArg Fin.val hw⟩

/-- In an increasing list, whatever is below an element stands before it. -/
theorem mem_before_of_lt {n : Nat} {l pre post : List (Fin n)} {w v : Fin n}
    (hs : l.Pairwise (· < ·)) (hl : l = pre ++ w :: post) (hv : v ∈ l) (hvw : v < w) :
    v ∈ pre := by
  subst hl
  rcases List.mem_append.mp hv with h | h
  · exact h
  · rcases List.mem_cons.mp h with h | h
    · exact absurd hvw (by rw [h]; exact lt_irrefl _)
    · have hwv : w < v := by
        have h2 := (List.pairwise_append.mp hs).2.1
        exact (List.pairwise_cons.mp h2).1 v h
      exact absurd hvw (not_lt_of_gt hwv)

/-- What the scan of `cache_find_lru_way` computes on a list of ways: either no
way of the list has counter `0` and the scan ends in the fatal branch, or it
returns the first way of the list whose counter is `0`. -/
theorem find_lru_way_scan_spec (s : cache_set_t) :
    ∀ l : List (Fin CACHE_NUM_WAYS),
      (cache_find_lru_way_scan s l = none ∧ ∀ w ∈ l, s.lru_counters w ≠ 0) ∨
      ∃ pre w post, l = pre ++ w :: post ∧ s.lru_counters w = 0 ∧
        (∀ v ∈ pre, s.lru_counters v ≠ 0) ∧ cache_find_lru_way_scan s l = some w := by
  intro l
  induction l with
  | nil => left; simp [cache_find_lru_way_scan]
  | cons way rest ih =>
    by_cases h0 : s.lru_counters way = 0
    · right
      exact ⟨[], way, rest, rfl, h0, by simp, by simp [cache_find_lru_way_scan, h0]⟩
    · rcases ih with ⟨hnone, hall⟩ | ⟨pre, w, post, hl, hw, hpre, hres⟩
      · left
        refine ⟨by simp [cache_find_lru_way_scan, h0, hnone], ?_⟩
        intro w hw
        rcases List.mem_cons.mp hw with h | h
        · rw [h]; exact h0
        · exact hall w h
      · right
        refine ⟨way :: pre, w, post, by simp [hl], hw, ?_, by
          simp [cache_find_lru_way_scan, h0, hres]⟩
        intro v hv
        rcases List.mem_cons.mp hv with h | h
        · rw [h]; exact h0
        · exact hpre v h

/-- Promotion keeps the rank array a permutation. -/
theorem update_lru_perm (st : CacheState) (set : Nat)
    (accessed_way : Fin CACHE_NUM_WAYS) (h : IsRankPerm (ranks st set)) :
    IsRankPerm (ranks (cache_update_lru st set accessed_way) set) := by
  obtain ⟨hb, hinj⟩ := h
  have ha : ranks st set accessed_way < 4 := hb accessed_way
  constructor
  · intro w
    have hw : ranks st set w < 4 := hb w
    show ranks (cache_update_lru st set accessed_way) set w < 4
    rw [ranks_update_lru, slide_of_lt _ _ (by omega)]
    split_ifs <;> omega
  · intro w1 w2 heq
    have h1 : ranks st set w1 < 4 := hb w1
    have h2 : ranks st set w2 < 4 := hb w2
    rw [ranks_update_lru, ranks_update_lru, slide_of_lt _ _ (by omega),
      slide_of_lt _ _ (by omega)] at heq
    by_cases e1 : w1 = accessed_way
    · by_cases e2 : w2 = accessed_way
      · rw [e1, e2]
      · exfalso
        have hne : ranks st set w2 ≠ ranks st set accessed_way :=
          fun hc => e2 (hinj _ _ hc)
        rw [if_pos e1, if_neg e2] at heq
        split_ifs at heq <;> omega
    · have hne1 : ranks st set w1 ≠ ranks st set accessed_way :=
        fun hc => e1 (hinj _ _ hc)
      by_cases e2 : w2 = accessed_way
      · exfalso
        rw [if_neg e1, if_pos e2] at heq
        split_ifs at heq <;> omega
      · have hne2 : ranks st set w2 ≠ ranks st set accessed_way :=
          fun hc => e2 (hinj _ _ hc)
        apply hinj
        rw [if_neg e1, if_neg e2] at heq
        split_ifs at heq <;> omega

/-- Claim C1: when the rank array of a set is a permutation of `0..3`, the rank
array after `cache_update_lru(set, accessed_way)` is again a permutation of
`0..3`, for every way index `accessed_way`. -/
theorem cache_update_lru_preserves_perm (st : CacheState) (set : Nat)
    (accessed_way : Fin CACHE_NUM_WAYS) (h : IsRankPerm (ranks st set)) :
    IsRankPerm (ranks (cache_update_lru st set accessed_way) set) :=
  update_lru_perm st set accessed_way h

/-- Witness of C1: the rank array `[2, 0, 3, 1]` is a permutation and stays one
when way `1` is promoted. -/
theorem cache_update_lru_preserves_perm_witness :
    IsRankPerm (ranks (state_of_ranks ![2, 0, 3, 1]) 5) ∧
    IsRankPerm (ranks (cache_update_lru (state_of_ranks ![2, 0, 3, 1]) 5 1) 5) :=
  ⟨by decide, cache_update_lru_preserves_perm (state_of_ranks ![2, 0, 3, 1]) 5 1 (by decide)⟩

/-- Claim C2: when all ranks of a set are in `0..3` and `old` is the rank of
`accessed_way` before the call, `cache_update_lru(set, accessed_way)` leaves
rank `3` at `accessed_way`, the old rank minus one (a true subtraction, without
8-bit wrap-around) at every other way whose old rank was above `old`, and the
old rank at every other way whose old rank was at most `old`. -/
theorem cache_update_lru_ranks (st : CacheState) (set : Nat)
    (accessed_way : Fin CACHE_NUM_WAYS)
    (h : ∀ w, ranks st set w < CACHE_NUM_WAYS) :
    ranks (cache_update_lru st set accessed_way) set accessed_way = CACHE_NUM_WAYS - 1 ∧
    ∀ w, w ≠ accessed_way →
      (ranks st set w > ranks st set accessed_way →
        (ranks (cache_update_lru st set accessed_way) set w : Int)
          = (ranks st set w : Int) - 1) ∧
      (ranks st set w ≤ ranks st set accessed_way →
        ranks (cache_update_lru st set accessed_way) set w = ranks st set w) := by
  refine ⟨by simp [ranks_update_lru], ?_⟩
  intro w hw
  have hb : ranks st set w < 4 := h w
  rw [ranks_update_lru, if_neg hw, slide_of_lt _ _ (by omega)]
  constructor
  · intro hgt
    rw [if_pos hgt]
    omega
  · intro hle
    rw [if_neg (by omega)]

/-- Witness of C2: the rank array `[2, 0, 3, 1]` has all ranks in `0..3`; after
promoting way `0` (old rank `2`) the ranks are `[3, 0, 2, 1]`. -/
theorem cache_update_lru_ranks_witness :
    (∀ w, ranks (state_of_ranks ![2, 0, 3, 1]) 7 w < CACHE_NUM_WAYS) ∧
    ranks (cache_update_lru (state_of_ranks ![2, 0, 3, 1]) 7 0) 7 0 = CACHE_NUM_WAYS - 1 ∧
    ∀ w, w ≠ 0 →
      (ranks (state_of_ranks ![2, 0, 3, 1]) 7 w > ranks (state_of_ranks ![2, 0, 3, 1]) 7 0 →
        (ranks (cache_update_lru (state_of_ranks ![2, 0, 3, 1]) 7 0) 7 w : Int)
          = (ranks (state_of_ranks ![2, 0, 3, 1]) 7 w : Int) - 1) ∧
      (ranks (state_of_ranks ![2, 0, 3, 1]) 7 w ≤ ranks (state_of_ranks ![2, 0, 3, 1]) 7 0 →
        ranks (cache_update_lru (state_of_ranks ![2, 0, 3, 1]) 7 0) 7 w
          = ranks (state_of_ranks ![2, 0, 3, 1]) 7 w) :=
  ⟨by decide, cache_update_lru_ranks (state_of_ranks ![2, 0, 3, 1]) 7 0 (by decide)⟩

/-- On a permutation the victim scan returns the one way of rank `0`. -/
theorem find_lru_way_perm (st : CacheState) (set : Nat)
    (h : IsRankPerm (ranks st set)) :
    ∃ w, cache_find_lru_way st set = some w ∧ ranks st set w = 0 ∧
      ∀ v, ranks st set v = 0 → v = w := by
  obtain ⟨w0, hw0⟩ := h.exists_rank 0 (by decide)
  rcases find_lru_way_scan_spec (st.CACHE_DATA_PTR set) (List.finRange CACHE_NUM_WAYS) with
    ⟨_, hall⟩ | ⟨pre, w, post, _, hw, _, hres⟩
  · exact absurd hw0 (hall w0 (List.mem_finRange w0))
  · refine ⟨w, hres, hw, ?_⟩
    intro v hv
    exact h.2 v w (hv.trans hw.symm)

/-- Claim C3: when the rank array of a set is a permutation of `0..3`,
`cache_find_lru_way(set)` returns (the fatal branch behind `CACHE_ASSERT(0)` is
not reached), and the way it returns is the unique way whose counter is `0`. -/
theorem cache_find_lru_way_of_perm (st : CacheState) (set : Nat)
    (h : IsRankPerm (ranks st set)) :
    ∃ w, cache_find_lru_way st set = some w ∧ ranks st set w = 0 ∧
      ∀ v, ranks st set v = 0 → v = w :=
  find_lru_way_perm st set h

/-- Witness of C3: in the permutation `[2, 0, 3, 1]` the victim is way `1`. -/
theorem cache_find_lru_way_of_perm_witness :
    IsRankPerm (ranks (state_of_ranks ![2, 0, 3, 1]) 3) ∧
    ∃ w, cache_find_lru_way (state_of_ranks ![2, 0, 3, 1]) 3 = some w ∧
      ranks (state_of_ranks ![2, 0, 3, 1]) 3 w = 0 ∧
      ∀ v, ranks (state_of_ranks ![2, 0, 3, 1]) 3 v = 0 → v = w :=
  ⟨by decide, cache_find_lru_way_of_perm (state_of_ranks ![2, 0, 3, 1]) 3 (by decide)⟩

/-! ## `cache_init` -/

theorem init_way_other_set (set : Nat) (st : CacheState) (way : Fin CACHE_NUM_WAYS)
    (s : Nat) (hs : s ≠ set) :
    (cache_init_way set st way).CACHE_DATA_PTR s = st.CACHE_DATA_PTR s := by
  simp [cache_init_way, store_lru, store_tag, store_valid, hs]

theorem init_way_lru (set : Nat) (st : CacheState) (way w : Fin CACHE_NUM_WAYS) :
    ((cache_init_way set st way).CACHE_DATA_PTR set).lru_counters w
      = if w = way then w.val % 2 ^ 8 else (st.CACHE_DATA_PTR set).lru_counters w := by
  by_cases hw : w = way
  · simp [cache_init_way, store_lru, store_tag, store_valid, hw]
  · simp [cache_init_way, store_lru, store_tag, store_valid, hw]

theorem init_way_valid (set : Nat) (st : CacheState) (way w : Fin CACHE_NUM_WAYS) :
    (((cache_init_way set st way).CACHE_DATA_PTR set).ways w).valid
      = if w = way then 0 else ((st.CACHE_DATA_PTR set).ways w).valid := by
  by_cases hw : w = way
  · simp [cache_init_way, store_lru, store_tag, store_valid, hw]
  · simp [cache_init_way, store_lru, store_tag, store_valid, hw]

theorem init_ways_other_set (set s : Nat) (hs : s ≠ set) :
    ∀ (l : List (Fin CACHE_NUM_WAYS)) (st : CacheState),
      (l.foldl (cache_init_way set) st).CACHE_DATA_PTR s = st.CACHE_DATA_PTR s := by
  intro l
  induction l with
  | nil => intro st; rfl
  | cons way rest ih =>
    intro st
    rw [List.foldl_cons, ih, init_way_other_set _ _ _ _ hs]

theorem init_ways_lru (set : Nat) (w : Fin CACHE_NUM_WAYS) :
    ∀ (l : List (Fin CACHE_NUM_WAYS)) (st : CacheState),
      ((l.foldl (cache_init_way set) st).CACHE_DATA_PTR set).lru_counters w
        = if w ∈ l then w.val % 2 ^ 8 else (st.CACHE_DATA_PTR set).lru_counters w := by
  intro l
  induction l with
  | nil => intro st; simp
  | cons way rest ih =>
    intro st
    rw [List.foldl_cons, ih, init_way_lru]
    by_cases h1 : w ∈ rest
    · simp [h1]
    · by_cases h2 : w = way
      · simp [h2]
      · simp [h1, h2]

theorem init_ways_valid (set : Nat) (w : Fin CACHE_NUM_WAYS) :
    ∀ (l : List (Fin CACHE_NUM_WAYS)) (st : CacheState),
      (((l.foldl (cache_init_way set) st).CACHE_DATA_PTR set).ways w).valid
        = if w ∈ l then 0 else ((st.CACHE_DATA_PTR set).ways w).valid := by
  intro l
  induction l with
  | nil => intro st; simp
  | cons way rest ih =>
    intro st
    rw [List.foldl_cons, ih, init_way_valid]
    by_cases h1 : w ∈ rest
    · simp [h1]
    · by_cases h2 : w = way
      · simp [h2]
      · simp [h1, h2]

/-- The sets below the loop bound after the outer loop of `cache_init`: counter
`w` at way `w`, no valid line. -/
theorem init_sets_spec (n : Nat) (st : CacheState) (s : Nat) (hs : s < n)
    (w : Fin CACHE_NUM_WAYS) :
    (((List.range n).foldl cache_init_set st).CACHE_DATA_PTR s).lru_counters w = w.val ∧
    ((((List.range n).foldl cache_init_set st).CACHE_DATA_PTR s).ways w).valid = 0 := by
  induction n with
  | zero => omega
  | succ n ih =>
    rw [List.range_succ, List.foldl_append, List.foldl_cons, List.foldl_nil]
    by_cases hsn : s = n
    · subst hsn
      have hw : w.val < 4 := w.isLt
      unfold cache_init_set
      rw [init_ways_lru, init_ways_valid]
      simp only [List.mem_finRange, if_true]
      refine ⟨?_, trivial⟩
      have h8 : (2 : Nat) ^ 8 = 256 := by norm_num
      rw [h8]
      omega
    · unfold cache_init_set
      rw [init_ways_other_set _ _ hsn]
      exact ih (by omega)

/-- Claim C4: after `cache_init()`, for every set index `s` below the number of
sets and every way `w`, `lru_counters[w] == w` (so the rank array of the set is
a permutation of `0..3`), `ways[w].valid == 0`, and the four statistics
counters are zero. The loop bound of the source, `CACHE_NUM_SETS`, is a
parameter; the statement holds for every value of it, `CACHE_NUM_SET = 32`
included. -/
theorem cache_init_spec (CACHE_NUM_SETS : Nat) (st : CacheState) (s : Nat)
    (hs : s < CACHE_NUM_SETS) :
    (∀ w, ranks (cache_init CACHE_NUM_SETS st) s w = w.val) ∧
    IsRankPerm (ranks (cache_init CACHE_NUM_SETS st) s) ∧
    (∀ w, (((cache_init CACHE_NUM_SETS st).CACHE_DATA_PTR s).ways w).valid = 0) ∧
    (cache_init CACHE_NUM_SETS st).g_cache_stats
      = { total_accesses := 0, hits := 0, misses := 0, evictions := 0 } := by
  have hr : ∀ w, ranks (cache_init CACHE_NUM_SETS st) s w = w.val :=
    fun w => (init_sets_spec CACHE_NUM_SETS st s hs w).1
  refine ⟨hr, ⟨?_, ?_⟩, fun w => (init_sets_spec CACHE_NUM_SETS st s hs w).2, rfl⟩
  · intro w
    rw [hr]
    exact w.isLt
  · intro w1 w2 h12
    rw [hr, hr] at h12
    exact Fin.ext h12

/-- Witness of C4: set `31` of a 32-set cache, initialised from a state whose
rank arrays are all `[7, 7, 7, 7]`. -/
theorem cache_init_spec_witness :
    31 < CACHE_NUM_SET ∧
    (∀ w, ranks (cache_init CACHE_NUM_SET (state_of_ranks ![7, 7, 7, 7])) 31 w = w.val) ∧
    IsRankPerm (ranks (cache_init CACHE_NUM_SET (state_of_ranks ![7, 7, 7, 7])) 31) ∧
    (∀ w, (((cache_init CACHE_NUM_SET (state_of_ranks ![7, 7, 7, 7])).CACHE_DATA_PTR 31).ways
      w).valid = 0) ∧
    (cache_init CACHE_NUM_SET (state_of_ranks ![7, 7, 7, 7])).g_cache_stats
      = { total_accesses := 0, hits := 0, misses := 0, evictions := 0 } :=
  ⟨by decide, cache_init_spec CACHE_NUM_SET (state_of_ranks ![7, 7, 7, 7]) 31 (by decide)⟩

/-! ## Sequences of promotions -/

theorem promote_all_snoc (st : CacheState) (set : Nat) (l : List (Fin CACHE_NUM_WAYS))
    (a : Fin CACHE_NUM_WAYS) :
    promote_all st set (l ++ [a]) = cache_update_lru (promote_all st set l) set a := by
  simp [promote_all, List.foldl_append]

theorem promote_all_append (st : CacheState) (set : Nat) (l1 l2 : List (Fin CACHE_NUM_WAYS)) :
    promote_all st set (l1 ++ l2) = promote_all (promote_all st set l1) set l2 := by
  simp [promote_all, List.foldl_append]

theorem promote_all_perm (set : Nat) :
    ∀ (l : List (Fin CACHE_NUM_WAYS)) (st : CacheState), IsRankPerm (ranks st set) →
      IsRankPerm (ranks (promote_all st set l) set) := by
  intro l
  induction l with
  | nil => intro st h; exact h
  | cons a rest ih =>
    intro st h
    exact ih (cache_update_lru st set a) (update_lru_perm st set a h)

/-- A way that is not promoted by a sequence of promotions ends below every way
that the sequence promotes. -/
theorem promote_all_below (st : CacheState) (set : Nat) (v : Fin CACHE_NUM_WAYS)
    (hperm : IsRankPerm (ranks st set)) (post : List (Fin CACHE_NUM_WAYS)) :
    v ∉ post → ∀ w ∈ post,
      ranks (promote_all st set post) set v < ranks (promote_all st set post) set w := by
  induction post using List.reverseRecOn with
  | nil => intro _ w hw; simp at hw
  | append_singleton l a ih =>
    intro hv w hw
    have hvl : v ∉ l := fun hc => hv (List.mem_append_left _ hc)
    have hva : v ≠ a := fun hc => hv (by simp [hc])
    have hp := promote_all_perm set l st hperm
    have hbv : ranks (promote_all st set l) set v < 4 := hp.1 v
    have hba : ranks (promote_all st set l) set a < 4 := hp.1 a
    have hbw : ranks (promote_all st set l) set w < 4 := hp.1 w
    have hne : ranks (promote_all st set l) set v ≠ ranks (promote_all st set l) set a :=
      fun hc => hva (hp.2 _ _ hc)
    rw [promote_all_snoc, ranks_update_lru, ranks_update_lru, if_neg hva,
      slide_of_lt _ _ (by omega)]
    by_cases hwa : w = a
    · rw [if_pos hwa]
      split_ifs <;> omega
    · have hwl : w ∈ l := by
        rcases List.mem_append.mp hw with h | h
        · exact h
        · exact absurd (List.mem_singleton.mp h) hwa
      have hlt := ih hvl w hwl
      have hne2 : ranks (promote_all st set l) set w ≠ ranks (promote_all st set l) set a :=
        fun hc => hwa (hp.2 _ _ hc)
      rw [if_neg hwa, slide_of_lt _ _ (by omega)]
      split_ifs <;> omega

/-- A sequence in which every way occurs splits at the last occurrence of one
way `v` so that all other ways occur after the split: `v` is the way whose last
promotion is the earliest. -/
theorem exists_earliest_last (seq : List (Fin CACHE_NUM_WAYS)) :
    (∀ w, w ∈ seq) →
      ∃ v pre post, seq = pre ++ v :: post ∧ v ∉ post ∧ ∀ w, w ≠ v → w ∈ post := by
  induction seq with
  | nil => intro h; exact absurd (h 0) (by simp)
  | cons a rest ih =>
    intro h
    by_cases hall : ∀ w, w ∈ rest
    · obtain ⟨v, pre, post, hl, hv, hpost⟩ := ih hall
      exact ⟨v, a :: pre, post, by simp [hl], hv, hpost⟩
    · have hmem : ∀ w, w ≠ a → w ∈ rest := by
        intro w hw
        rcases List.mem_cons.mp (h w) with h1 | h1
        · exact absurd h1 hw
        · exact h1
      have ha : a ∉ rest := by
        intro hc
        apply hall
        intro w
        by_cases hw : w = a
        · rw [hw]; exact hc
        · exact hmem w hw
      exact ⟨a, [], rest, rfl, ha, hmem⟩

/-- The victim after a sequence of promotions that ends with a promotion of `v`
followed by promotions of all other ways and no further promotion of `v`. -/
theorem find_lru_way_after (st : CacheState) (set : Nat)
    (hperm : IsRankPerm (ranks st set)) (v : Fin CACHE_NUM_WAYS)
    (pre post : List (Fin CACHE_NUM_WAYS)) (hv : v ∉ post) (hpost : ∀ w, w ≠ v → w ∈ post) :
    cache_find_lru_way (promote_all st set (pre ++ v :: post)) set = some v := by
  have hsplit : promote_all st set (pre ++ v :: post)
      = promote_all (cache_update_lru (promote_all st set pre) set v) set post := by
    rw [promote_all_append]; rfl
  have hp1 : IsRankPerm (ranks (cache_update_lru (promote_all st set pre) set v) set) :=
    update_lru_perm _ _ _ (promote_all_perm set pre st hperm)
  have hbelow := promote_all_below _ set v hp1 post hv
  have hp2 := promote_all_perm set post _ hp1
  rw [hsplit]
  obtain ⟨w, hres, hw, _⟩ := find_lru_way_perm _ set hp2
  by_cases hwv : w = v
  · rw [hres, hwv]
  · have := hbelow w (hpost w hwv)
    omega

/-- Claim C5 (LRU policy): for a set whose rank array is a permutation of `0..3`
and a finite sequence of `cache_update_lru` calls on that set in which each of
the four ways is promoted at least once, `cache_find_lru_way` afterwards returns
the way whose last promotion occurs earliest in the sequence (the sequence
splits as `pre ++ v :: post` with `v` not in `post` and every other way in
`post`; such a way exists and it is the one returned), and the way promoted last
has rank `3`. -/
theorem lru_policy (st : CacheState) (set : Nat) (seq : List (Fin CACHE_NUM_WAYS))
    (hperm : IsRankPerm (ranks st set)) (hall : ∀ w, w ∈ seq) :
    (∃ v pre post, seq = pre ++ v :: post ∧ v ∉ post ∧ (∀ w, w ≠ v → w ∈ post) ∧
      cache_find_lru_way (promote_all st set seq) set = some v) ∧
    (∀ v pre post, seq = pre ++ v :: post → v ∉ post → (∀ w, w ≠ v → w ∈ post) →
      cache_find_lru_way (promote_all st set seq) set = some v) ∧
    (∀ front last, seq = front ++ [last] →
      ranks (promote_all st set seq) set last = CACHE_NUM_WAYS - 1) := by
  have huniv : ∀ v pre post, seq = pre ++ v :: post → v ∉ post → (∀ w, w ≠ v → w ∈ post) →
      cache_find_lru_way (promote_all st set seq) set = some v := by
    intro v pre post hl hv hpost
    rw [hl]
    exact find_lru_way_after st set hperm v pre post hv hpost
  refine ⟨?_, huniv, ?_⟩
  · obtain ⟨v, pre, post, hl, hv, hpost⟩ := exists_earliest_last seq hall
    exact ⟨v, pre, post, hl, hv, hpost, huniv v pre post hl hv hpost⟩
  · intro front last hl
    rw [hl, promote_all_snoc, ranks_update_lru]
    simp

/-- Witness of C5: from the permutation `[2, 0, 3, 1]`, the promotions
`3, 1, 0, 1, 2, 0` promote every way; the last promotion of way `3` is the
earliest. -/
theorem lru_policy_witness :
    IsRankPerm (ranks (state_of_ranks ![2, 0, 3, 1]) 2) ∧
    (∀ w, w ∈ ([3, 1, 0, 1, 2, 0] : List (Fin CACHE_NUM_WAYS))) ∧
    cache_find_lru_way (promote_all (state_of_ranks ![2, 0, 3, 1]) 2 [3, 1, 0, 1, 2, 0]) 2
      = some 3 ∧
    ranks (promote_all (state_of_ranks ![2, 0, 3, 1]) 2 [3, 1, 0, 1, 2, 0]) 2 0
      = CACHE_NUM_WAYS - 1 :=
  ⟨by decide, by decide,
    (lru_policy (state_of_ranks ![2, 0, 3, 1]) 2 [3, 1, 0, 1, 2, 0] (by decide)
      (by decide)).2.1 3 [] [1, 0, 1, 2, 0] rfl (by decide) (by decide),
    (lru_policy (state_of_ranks ![2, 0, 3, 1]) 2 [3, 1, 0, 1, 2, 0] (by decide)
      (by decide)).2.2 [3, 1, 0, 1, 2] 0 rfl⟩

/-! ## The capacity scenario -/

/-- The rank array after a promotion depends only on the rank array before it. -/
theorem ranks_update_lru_congr (st : CacheState) (set : Nat) (a : Fin CACHE_NUM_WAYS)
    (r : Fin CACHE_NUM_WAYS → Nat) (h : ranks st set = r) :
    ranks (cache_update_lru st set a) set = ranks (cache_update_lru (state_of_ranks r) 0 a) 0 := by
  funext w
  rw [ranks_update_lru, ranks_update_lru, h]
  rfl

/-- The victim depends only on the rank array. -/
theorem find_lru_way_congr (st : CacheState) (set : Nat) (r : Fin CACHE_NUM_WAYS → Nat)
    (h : ranks st set = r) :
    cache_find_lru_way st set = cache_find_lru_way (state_of_ranks r) 0 := by
  have hscan : ∀ (s1 s2 : cache_set_t), s1.lru_counters = s2.lru_counters →
      ∀ l, cache_find_lru_way_scan s1 l = cache_find_lru_way_scan s2 l := by
    intro s1 s2 h12 l
    induction l with
    | nil => rfl
    | cons way rest ih => simp [cache_find_lru_way_scan, h12, ih]
  exact hscan (st.CACHE_DATA_PTR set) ((state_of_ranks r).CACHE_DATA_PTR 0) h _

/-- Claim C6 (capacity scenario on one set, from the `cache_init` state, a fill
being victim selection by `cache_find_lru_way` followed by `cache_update_lru`
on the victim): four fills `A0, A1, A2, A3` choose four distinct ways
`w0, w1, w2, w3` and leave ranks `A0=0, A1=1, A2=2, A3=3`; promoting the way of
`A0` then leaves `A0=3, A1=0, A2=1, A3=2`; a fifth fill `A4` then selects the
way of `A1` as victim and leaves `A4=3, A2=0, A3=1, A0=2`. -/
theorem capacity_scenario (CACHE_NUM_SETS : Nat) (st0 : CacheState) (s : Nat)
    (hs : s < CACHE_NUM_SETS) :
    ∃ w0 w1 w2 w3 st1 st2 st3 st4 st5 st6,
      cache_find_lru_way (cache_init CACHE_NUM_SETS st0) s = some w0 ∧
      st1 = cache_update_lru (cache_init CACHE_NUM_SETS st0) s w0 ∧
      cache_find_lru_way st1 s = some w1 ∧ st2 = cache_update_lru st1 s w1 ∧
      cache_find_lru_way st2 s = some w2 ∧ st3 = cache_update_lru st2 s w2 ∧
      cache_find_lru_way st3 s = some w3 ∧ st4 = cache_update_lru st3 s w3 ∧
      [w0, w1, w2, w3].Nodup ∧
      ranks st4 s w0 = 0 ∧ ranks st4 s w1 = 1 ∧ ranks st4 s w2 = 2 ∧ ranks st4 s w3 = 3 ∧
      st5 = cache_update_lru st4 s w0 ∧
      ranks st5 s w0 = 3 ∧ ranks st5 s w1 = 0 ∧ ranks st5 s w2 = 1 ∧ ranks st5 s w3 = 2 ∧
      cache_find_lru_way st5 s = some w1 ∧ st6 = cache_update_lru st5 s w1 ∧
      ranks st6 s w1 = 3 ∧ ranks st6 s w2 = 0 ∧ ranks st6 s w3 = 1 ∧ ranks st6 s w0 = 2 := by
  have h0 : ranks (cache_init CACHE_NUM_SETS st0) s = fun w => w.val :=
    funext fun w => (init_sets_spec CACHE_NUM_SETS st0 s hs w).1
  have h1 := ranks_update_lru_congr _ s 0 _ h0
  have h2 := ranks_update_lru_congr _ s 1 _ h1
  have h3 := ranks_update_lru_congr _ s 2 _ h2
  have h4 := ranks_update_lru_congr _ s 3 _ h3
  have h5 := ranks_update_lru_congr _ s 0 _ h4
  have h6 := ranks_update_lru_congr _ s 1 _ h5
  have f0 := find_lru_way_congr _ s _ h0
  have f1 := find_lru_way_congr _ s _ h1
  have f2 := find_lru_way_congr _ s _ h2
  have f3 := find_lru_way_congr _ s _ h3
  have f5 := find_lru_way_congr _ s _ h5
  refine ⟨0, 1, 2, 3, _, _, _, _, _, _, ?_, rfl, ?_, rfl, ?_, rfl, ?_, rfl, by decide,
    ?_, ?_, ?_, ?_, rfl, ?_, ?_, ?_, ?_, ?_, rfl, ?_, ?_, ?_, ?_⟩
  · rw [f0]; decide
  · rw [f1]; decide
  · rw [f2]; decide
  · rw [f3]; decide
  · rw [h4]; decide
  · rw [h4]; decide
  · rw [h4]; decide
  · rw [h4]; decide
  · rw [h5]; decide
  · rw [h5]; decide
  · rw [h5]; decide
  · rw [h5]; decide
  · rw [f5]; decide
  · rw [h6]; decide
  · rw [h6]; decide
  · rw [h6]; decide
  · rw [h6]; decide

/-- Witness of C6: set `0` of a 32-set cache, initialised from a state whose
rank arrays are all `[7, 7, 7, 7]`. -/
theorem capacity_scenario_witness :
    0 < CACHE_NUM_SET ∧
    ∃ w0 w1 w2 w3 st1 st2 st3 st4 st5 st6,
      cache_find_lru_way (cache_init CACHE_NUM_SET (state_of_ranks ![7, 7, 7, 7])) 0
        = some w0 ∧
      st1 = cache_update_lru (cache_init CACHE_NUM_SET (state_of_ranks ![7, 7, 7, 7])) 0 w0 ∧
      cache_find_lru_way st1 0 = some w1 ∧ st2 = cache_update_lru st1 0 w1 ∧
      cache_find_lru_way st2 0 = some w2 ∧ st3 = cache_update_lru st2 0 w2 ∧
      cache_find_lru_way st3 0 = some w3 ∧ st4 = cache_update_lru st3 0 w3 ∧
      [w0, w1, w2, w3].Nodup ∧
      ranks st4 0 w0 = 0 ∧ ranks st4 0 w1 = 1 ∧ ranks st4 0 w2 = 2 ∧ ranks st4 0 w3 = 3 ∧
      st5 = cache_update_lru st4 0 w0 ∧
      ranks st5 0 w0 = 3 ∧ ranks st5 0 w1 = 0 ∧ ranks st5 0 w2 = 1 ∧ ranks st5 0 w3 = 2 ∧
      cache_find_lru_way st5 0 = some w1 ∧ st6 = cache_update_lru st5 0 w1 ∧
      ranks st6 0 w1 = 3 ∧ ranks st6 0 w2 = 0 ∧ ranks st6 0 w3 = 1 ∧ ranks st6 0 w0 = 2 :=
  ⟨by decide, capacity_scenario CACHE_NUM_SET (state_of_ranks ![7, 7, 7, 7]) 0 (by decide)⟩

/-! ## `cache_lookup` -/

/-- What the scan of `cache_lookup` computes on a list of ways: either no way of
the list matches and the result is `-1`, or the result is the first way of the
list that matches. -/
theorem lookup_scan_spec (s : cache_set_t) (tag : Nat) :
    ∀ l : List (Fin CACHE_NUM_WAYS),
      (cache_lookup_scan s tag l = -1 ∧ ∀ w ∈ l, ¬ line_matches s tag w) ∨
      ∃ pre w post, l = pre ++ w :: post ∧ line_matches s tag w ∧
        (∀ v ∈ pre, ¬ line_matches s tag v) ∧ cache_lookup_scan s tag l = (w.val : Int) := by
  intro l
  induction l with
  | nil => left; simp [cache_lookup_scan]
  | cons way rest ih =>
    by_cases hm : line_matches s tag way
    · right
      refine ⟨[], way, rest, rfl, hm, by simp, ?_⟩
      obtain ⟨hv, ht⟩ := hm
      simp [cache_lookup_scan, hv, ht]
    · have hstep : cache_lookup_scan s tag (way :: rest) = cache_lookup_scan s tag rest := by
        unfold line_matches at hm
        by_cases hv : (s.ways way).valid ≠ 0
        · have ht : (s.ways way).tag ≠ tag := fun hc => hm ⟨hv, hc⟩
          simp [cache_lookup_scan, ht]
        · simp [cache_lookup_scan, hv]
      rcases ih with ⟨hres, hall⟩ | ⟨pre, w, post, hl, hw, hpre, hres⟩
      · left
        refine ⟨by rw [hstep, hres], ?_⟩
        intro w hw
        rcases List.mem_cons.mp hw with h | h
        · rw [h]; exact hm
        · exact hall w h
      · right
        refine ⟨way :: pre, w, post, by simp [hl], hw, ?_, by rw [hstep, hres]⟩
        intro v hv
        rcases List.mem_cons.mp hv with h | h
        · rw [h]; exact hm
        · exact hpre v h

/-- The outcome of `cache_lookup` for any address: the miss value `-1` when no
way of the addressed set matches, and otherwise the lowest matching way. -/
theorem lookup_outcome (inner : Nat) (st : CacheState) (addr : Nat) :
    ((cache_lookup inner st addr).1 = -1 ∧
      ∀ w, ¬ line_matches (st.CACHE_DATA_PTR (cache_get_set_index inner addr))
        (cache_get_tag addr) w) ∨
    ∃ w : Fin CACHE_NUM_WAYS, (cache_lookup inner st addr).1 = (w.val : Int) ∧
      line_matches (st.CACHE_DATA_PTR (cache_get_set_index inner addr)) (cache_get_tag addr) w ∧
      ∀ v, v < w → ¬ line_matches (st.CACHE_DATA_PTR (cache_get_set_index inner addr))
        (cache_get_tag addr) v := by
  rcases lookup_scan_spec (st.CACHE_DATA_PTR (cache_get_set_index inner addr))
      (cache_get_tag addr) (List.finRange CACHE_NUM_WAYS) with
    ⟨hres, hall⟩ | ⟨pre, w, post, hl, hw, hpre, hres⟩
  · left
    exact ⟨hres, fun w => hall w (List.mem_finRange w)⟩
  · right
    refine ⟨w, hres, hw, ?_⟩
    intro v hvw
    exact hpre v (mem_before_of_lt (List.pairwise_lt_finRange _) hl (List.mem_finRange v) hvw)

/-- Counterexample to C7 as stated: address `0` is not cacheable, and
`cache_lookup(0)` is a hit at way `2` in a state whose way `2` holds a valid
line of tag `0`, and the miss value `-1` in a state without valid lines. The
outcome is a hit way or a miss, never a third outcome. -/
theorem cache_lookup_not_cacheable_counterexample :
    cache_is_cacheable 0 = false ∧
    (cache_lookup 5
      (state_of_lines ![empty_line, empty_line, line_of_tag 0, empty_line] ![3, 0, 1, 2]
        ⟨0, 0, 0, 0⟩) 0).1 = 2 ∧
    (cache_lookup 5 (state_of_ranks ![3, 0, 1, 2]) 0).1 = -1 := by
  decide

/-- Claim C7, amended: for every cache state and every address `addr` with
`cache_is_cacheable(addr)` false, `cache_lookup(addr)` does not consult the
predicate: its outcome is the miss value `-1` (no way of the addressed set is
valid with the tag of `addr`) or a way that is valid with that tag, as for any
other address, and it leaves all four statistics counters unchanged. -/
theorem cache_lookup_not_cacheable (inner : Nat) (st : CacheState) (addr : Nat)
    (_hc : cache_is_cacheable addr = false) :
    (((cache_lookup inner st addr).1 = -1 ∧
        ∀ w, ¬ line_matches (st.CACHE_DATA_PTR (cache_get_set_index inner addr))
          (cache_get_tag addr) w) ∨
      ∃ w : Fin CACHE_NUM_WAYS, (cache_lookup inner st addr).1 = (w.val : Int) ∧
        line_matches (st.CACHE_DATA_PTR (cache_get_set_index inner addr))
          (cache_get_tag addr) w) ∧
    (cache_lookup inner st addr).2.g_cache_stats = st.g_cache_stats := by
  refine ⟨?_, rfl⟩
  rcases lookup_outcome inner st addr with h | ⟨w, hres, hw, _⟩
  · exact Or.inl h
  · exact Or.inr ⟨w, hres, hw⟩

/-- Witness of the amended C7: the non-cacheable address `0x20000000` in a state
whose ways `1` and `3` hold a valid line with the tag of that address. -/
theorem cache_lookup_not_cacheable_witness :
    cache_is_cacheable 0x20000000 = false ∧
    (cache_lookup 5
      (state_of_lines ![empty_line, line_of_tag 0x40000, empty_line, line_of_tag 0x40000]
        ![3, 0, 1, 2] ⟨10, 6, 4, 0⟩) 0x20000000).2.g_cache_stats = ⟨10, 6, 4, 0⟩ :=
  ⟨by decide,
    (cache_lookup_not_cacheable 5
      (state_of_lines ![empty_line, line_of_tag 0x40000, empty_line, line_of_tag 0x40000]
        ![3, 0, 1, 2] ⟨10, 6, 4, 0⟩) 0x20000000 (by decide)).2⟩

/-- Claim C8: for every cache state and every cacheable 32-bit address `addr`,
`cache_lookup(addr)` returns a way index `w` in `0..3` if and only if some way
of set `cache_get_set_index(addr)` is valid with tag `cache_get_tag(addr)`; the
way returned is then the lowest-indexed such way; otherwise the result is the
miss value `-1`. -/
theorem cache_lookup_result (inner : Nat) (st : CacheState) (addr : Nat)
    (_haddr : addr < 2 ^ 32) (_hc : cache_is_cacheable addr = true) :
    ((∃ w : Fin CACHE_NUM_WAYS, (cache_lookup inner st addr).1 = (w.val : Int)) ↔
      ∃ w, line_matches (st.CACHE_DATA_PTR (cache_get_set_index inner addr))
        (cache_get_tag addr) w) ∧
    (∀ w : Fin CACHE_NUM_WAYS, (cache_lookup inner st addr).1 = (w.val : Int) →
      line_matches (st.CACHE_DATA_PTR (cache_get_set_index inner addr)) (cache_get_tag addr) w ∧
      ∀ v, v < w → ¬ line_matches (st.CACHE_DATA_PTR (cache_get_set_index inner addr))
        (cache_get_tag addr) v) ∧
    ((¬ ∃ w, line_matches (st.CACHE_DATA_PTR (cache_get_set_index inner addr))
        (cache_get_tag addr) w) → (cache_lookup inner st addr).1 = -1) := by
  rcases lookup_outcome inner st addr with ⟨hres, hnone⟩ | ⟨w, hres, hw, hlow⟩
  · refine ⟨⟨?_, ?_⟩, ?_, fun _ => hres⟩
    · rintro ⟨w, hw⟩
      rw [hres] at hw
      omega
    · rintro ⟨w, hw⟩
      exact absurd hw (hnone w)
    · intro w hw
      rw [hres] at hw
      omega
  · refine ⟨⟨fun _ => ⟨w, hw⟩, fun _ => ⟨w, hres⟩⟩, ?_, fun hno => absurd ⟨w, hw⟩ hno⟩
    intro w2 hw2
    have hval : w2.val = w.val := by
      rw [hres] at hw2
      exact_mod_cast hw2.symm
    have heq : w2 = w := Fin.ext hval
    rw [heq]
    exact ⟨hw, hlow⟩

/-- Witness of C8: the cacheable address `0x08000040` (set `1`, tag `0x10000`)
in a state whose ways `1` and `3` both hold a valid line with that tag: the
lookup returns way `1`, the lower of the two. -/
theorem cache_lookup_result_witness :
    0x08000040 < 2 ^ 32 ∧ cache_is_cacheable 0x08000040 = true ∧
    (cache_lookup 5
      (state_of_lines ![empty_line, line_of_tag 0x10000, empty_line, line_of_tag 0x10000]
        ![3, 0, 1, 2] ⟨0, 0, 0, 0⟩) 0x08000040).1 = 1 ∧
    ∀ w : Fin CACHE_NUM_WAYS,
      (cache_lookup 5
        (state_of_lines ![empty_line, line_of_tag 0x10000, empty_line, line_of_tag 0x10000]
          ![3, 0, 1, 2] ⟨0, 0, 0, 0⟩) 0x08000040).1 = (w.val : Int) →
      line_matches
        ((state_of_lines ![empty_line, line_of_tag 0x10000, empty_line, line_of_tag 0x10000]
          ![3, 0, 1, 2] ⟨0, 0, 0, 0⟩).CACHE_DATA_PTR (cache_get_set_index 5 0x08000040))
        (cache_get_tag 0x08000040) w ∧
      ∀ v, v < w → ¬ line_matches
        ((state_of_lines ![empty_line, line_of_tag 0x10000, empty_line, line_of_tag 0x10000]
          ![3, 0, 1, 2] ⟨0, 0, 0, 0⟩).CACHE_DATA_PTR (cache_get_set_index 5 0x08000040))
        (cache_get_tag 0x08000040) v :=
  ⟨by decide, by decide, by decide,
    (cache_lookup_result 5
      (state_of_lines ![empty_line, line_of_tag 0x10000, empty_line, line_of_tag 0x10000]
        ![3, 0, 1, 2] ⟨0, 0, 0, 0⟩) 0x08000040 (by decide) (by decide)).2.1⟩

/-- Counterexample to C9 as stated: the cacheable address `0x08000040` hits at
way `1` of set `1`, whose rank is `0`; after `cache_lookup` the rank of way `1`
is still `0`, whereas `cache_update_lru(1, 1)` applied to the rank array before
the call gives it rank `3`. -/
theorem cache_lookup_promotes_counterexample :
    cache_is_cacheable 0x08000040 = true ∧
    cache_get_set_index 5 0x08000040 = 1 ∧
    (cache_lookup 5
      (state_of_lines ![empty_line, line_of_tag 0x10000, empty_line, line_of_tag 0x10000]
        ![3, 0, 1, 2] ⟨0, 0, 0, 0⟩) 0x08000040).1 = 1 ∧
    ranks (cache_lookup 5
      (state_of_lines ![empty_line, line_of_tag 0x10000, empty_line, line_of_tag 0x10000]
        ![3, 0, 1, 2] ⟨0, 0, 0, 0⟩) 0x08000040).2 1 1 = 0 ∧
    ranks (cache_update_lru
      (state_of_lines ![empty_line, line_of_tag 0x10000, empty_line, line_of_tag 0x10000]
        ![3, 0, 1, 2] ⟨0, 0, 0, 0⟩) 1 1) 1 1 = 3 := by
  decide

/-- Claim C9, amended: for every cache state and every cacheable address `addr`
on which `cache_lookup(addr)` hits at way `w`, the call leaves the rank array of
every set as it was before the call; way `w` is promoted only by a separate call
`cache_update_lru(set, w)`, after which `rank[w] == 3`. -/
theorem cache_lookup_hit_keeps_ranks (inner : Nat) (st : CacheState) (addr : Nat)
    (w : Fin CACHE_NUM_WAYS) (_hc : cache_is_cacheable addr = true)
    (_hhit : (cache_lookup inner st addr).1 = (w.val : Int)) :
    (∀ set, ranks (cache_lookup inner st addr).2 set = ranks st set) ∧
    ranks (cache_update_lru (cache_lookup inner st addr).2 (cache_get_set_index inner addr) w)
      (cache_get_set_index inner addr) w = 3 := by
  refine ⟨fun _ => rfl, ?_⟩
  rw [ranks_update_lru]
  simp

/-- Witness of the amended C9: the hit of `0x08000040` at way `1`. -/
theorem cache_lookup_hit_keeps_ranks_witness :
    cache_is_cacheable 0x08000040 = true ∧
    (cache_lookup 5
      (state_of_lines ![empty_line, line_of_tag 0x10000, empty_line, line_of_tag 0x10000]
        ![3, 0, 1, 2] ⟨0, 0, 0, 0⟩) 0x08000040).1 = ((1 : Fin CACHE_NUM_WAYS).val : Int) ∧
    ∀ set, ranks (cache_lookup 5
      (state_of_lines ![empty_line, line_of_tag 0x10000, empty_line, line_of_tag 0x10000]
        ![3, 0, 1, 2] ⟨0, 0, 0, 0⟩) 0x08000040).2 set
      = ranks (state_of_lines ![empty_line, line_of_tag 0x10000, empty_line, line_of_tag 0x10000]
        ![3, 0, 1, 2] ⟨0, 0, 0, 0⟩) set :=
  ⟨by decide, by decide,
    (cache_lookup_hit_keeps_ranks 5
      (state_of_lines ![empty_line, line_of_tag 0x10000, empty_line, line_of_tag 0x10000]
        ![3, 0, 1, 2] ⟨0, 0, 0, 0⟩) 0x08000040 1 (by decide) (by decide)).1⟩

/-- Counterexample to C10 as stated: with the counters at
`{total_accesses = 10, hits = 6, misses = 4, evictions = 0}`, the lookup of the
cacheable address `0x08000040` hits at way `1` and the lookup of the cacheable
address `0x08000840` misses; after either call the counters are what they were,
`total_accesses` is not `11`, `hits` is not `7` and `misses` is not `5`. -/
theorem cache_lookup_counts_counterexample :
    cache_is_cacheable 0x08000040 = true ∧ cache_is_cacheable 0x08000840 = true ∧
    (cache_lookup 5
      (state_of_lines ![empty_line, line_of_tag 0x10000, empty_line, line_of_tag 0x10000]
        ![3, 0, 1, 2] ⟨10, 6, 4, 0⟩) 0x08000040).1 = 1 ∧
    (cache_lookup 5
      (state_of_lines ![empty_line, line_of_tag 0x10000, empty_line, line_of_tag 0x10000]
        ![3, 0, 1, 2] ⟨10, 6, 4, 0⟩) 0x08000040).2.g_cache_stats = ⟨10, 6, 4, 0⟩ ∧
    (cache_lookup 5
      (state_of_lines ![empty_line, line_of_tag 0x10000, empty_line, line_of_tag 0x10000]
        ![3, 0, 1, 2] ⟨10, 6, 4, 0⟩) 0x08000840).1 = -1 ∧
    (cache_lookup 5
      (state_of_lines ![empty_line, line_of_tag 0x10000, empty_line, line_of_tag 0x10000]
        ![3, 0, 1, 2] ⟨10, 6, 4, 0⟩) 0x08000840).2.g_cache_stats = ⟨10, 6, 4, 0⟩ := by
  decide

/-- Claim C10, amended: for every cache state and every cacheable address
`addr`, one call of `cache_lookup(addr)` leaves `total_accesses`, `hits`,
`misses` and `evictions` unchanged, whether or not a valid line with the
matching tag is found. -/
theorem cache_lookup_keeps_stats (inner : Nat) (st : CacheState) (addr : Nat)
    (_hc : cache_is_cacheable addr = true) :
    (cache_lookup inner st addr).2.g_cache_stats.total_accesses
      = st.g_cache_stats.total_accesses ∧
    (cache_lookup inner st addr).2.g_cache_stats.hits = st.g_cache_stats.hits ∧
    (cache_lookup inner st addr).2.g_cache_stats.misses = st.g_cache_stats.misses ∧
    (cache_lookup inner st addr).2.g_cache_stats.evictions = st.g_cache_stats.evictions :=
  ⟨rfl, rfl, rfl, rfl⟩

/-- Witness of the amended C10: the hit of `0x08000040` with the counters at
`{10, 6, 4, 0}`. -/
theorem cache_lookup_keeps_stats_witness :
    cache_is_cacheable 0x08000040 = true ∧
    (cache_lookup 5
      (state_of_lines ![empty_line, line_of_tag 0x10000, empty_line, line_of_tag 0x10000]
        ![3, 0, 1, 2] ⟨10, 6, 4, 0⟩) 0x08000040).2.g_cache_stats.total_accesses = 10 :=
  ⟨by decide,
    (cache_lookup_keeps_stats 5
      (state_of_lines ![empty_line, line_of_tag 0x10000, empty_line, line_of_tag 0x10000]
        ![3, 0, 1, 2] ⟨10, 6, 4, 0⟩) 0x08000040 (by decide)).1⟩

/-! ## The address decoder -/

theorem offset_mask_disjoint : (2 ^ 32 - 1 - CACHE_OFFSET_MASK) &&& CACHE_OFFSET_MASK = 0 := by
  decide

/-- Claim C12: for every 32-bit address `a`,
`cache_get_offset(cache_align_addr(a)) == 0`. -/
theorem offset_of_aligned (a : Nat) (_ha : a < 2 ^ 32) :
    cache_get_offset (cache_align_addr a) = 0 := by
  unfold cache_get_offset cache_align_addr
  rw [Nat.and_assoc, offset_mask_disjoint, Nat.and_zero]

/-- Witness of C12: the address `0x0800107F` is aligned to `0x08001040`, whose
offset is `0`. -/
theorem offset_of_aligned_witness :
    0x0800107F < 2 ^ 32 ∧ cache_align_addr 0x0800107F = 0x08001040 ∧
    cache_get_offset (cache_align_addr 0x0800107F) = 0 :=
  ⟨by decide, by decide, offset_of_aligned 0x0800107F (by decide)⟩

/-- Claim C14: for every rank array of a set, permutation or not,
`cache_find_lru_way(set)` ends in the fatal branch behind `CACHE_ASSERT(0)` if
and only if no way has `lru_counters[w] == 0`; otherwise it returns the
lowest-indexed way whose counter is `0`. -/
theorem cache_find_lru_way_spec (st : CacheState) (set : Nat) :
    (cache_find_lru_way st set = none ↔ ∀ w, ranks st set w ≠ 0) ∧
    ((∃ w, ranks st set w = 0) →
      ∃ w, cache_find_lru_way st set = some w ∧ ranks st set w = 0 ∧
        ∀ v, v < w → ranks st set v ≠ 0) := by
  rcases find_lru_way_scan_spec (st.CACHE_DATA_PTR set) (List.finRange CACHE_NUM_WAYS) with
    ⟨hnone, hall⟩ | ⟨pre, w, post, hl, hw, hpre, hres⟩
  · refine ⟨⟨fun _ w => hall w (List.mem_finRange w), fun _ => hnone⟩, ?_⟩
    rintro ⟨w, hw⟩
    exact absurd hw (hall w (List.mem_finRange w))
  · have hres2 : cache_find_lru_way st set = some w := hres
    refine ⟨⟨?_, ?_⟩, fun _ => ⟨w, hres2, hw, ?_⟩⟩
    · intro hc
      rw [hres2] at hc
      exact absurd hc (by simp)
    · intro hc
      exact absurd hw (hc w)
    · intro v hvw
      exact hpre v
        (mem_before_of_lt (List.pairwise_lt_finRange _) hl (List.mem_finRange v) hvw)

/-- Witness of C14: in the rank array `[2, 0, 3, 0]`, not a permutation, ways `1`
and `3` have counter `0` and the victim is way `1`; in `[2, 1, 3, 1]` no way has
counter `0` and the function does not return. -/
theorem cache_find_lru_way_spec_witness :
    (∃ w, ranks (state_of_ranks ![2, 0, 3, 0]) 4 w = 0) ∧
    cache_find_lru_way (state_of_ranks ![2, 0, 3, 0]) 4 = some 1 ∧
    cache_find_lru_way (state_of_ranks ![2, 1, 3, 1]) 4 = none ∧
    ∃ w, cache_find_lru_way (state_of_ranks ![2, 0, 3, 0]) 4 = some w ∧
      ranks (state_of_ranks ![2, 0, 3, 0]) 4 w = 0 ∧
      ∀ v, v < w → ranks (state_of_ranks ![2, 0, 3, 0]) 4 v ≠ 0 :=
  ⟨by decide, by decide, by decide,
    (cache_find_lru_way_spec (state_of_ranks ![2, 0, 3, 0]) 4).2 (by decide)⟩

/-- Claim C15: the build-time geometry constants are mutually consistent: the
number of sets `CACHE_NUM_SET` is `CACHE_SIZE / (CACHE_LINE_SIZE * CACHE_NUM_WAYS)`
and is `32`; `2 ^ CACHE_OFFSET_BITS` is `CACHE_LINE_SIZE`, which is `64`;
`2 ^ CACHE_SET_INDEX_BITS` is the number of sets; and `CACHE_TAG_BITS` is
`32 - CACHE_OFFSET_BITS - CACHE_SET_INDEX_BITS`, which is `21`. -/
theorem geometry_consistent :
    CACHE_NUM_SET = CACHE_SIZE / (CACHE_LINE_SIZE * CACHE_NUM_WAYS) ∧
    CACHE_NUM_SET = 32 ∧
    2 ^ CACHE_OFFSET_BITS = CACHE_LINE_SIZE ∧ CACHE_LINE_SIZE = 64 ∧
    2 ^ CACHE_SET_INDEX_BITS = CACHE_NUM_SET ∧
    CACHE_TAG_BITS = 32 - CACHE_OFFSET_BITS - CACHE_SET_INDEX_BITS ∧ CACHE_TAG_BITS = 21 := by
  decide

/-- Claim C16: for every 32-bit address `addr`, `cache_is_cacheable(addr)` is
true if and only if `CACHE_FLASH_START <= addr < CACHE_FLASH_END`, that is
`0x08000000 <= addr < 0x0807FFFF`: the start is included, the end is not. -/
theorem cache_is_cacheable_iff (addr : Nat) (_haddr : addr < 2 ^ 32) :
    (cache_is_cacheable addr = true ↔ CACHE_FLASH_START ≤ addr ∧ addr < CACHE_FLASH_END) ∧
    (cache_is_cacheable addr = true ↔ 0x08000000 ≤ addr ∧ addr < 0x0807FFFF) := by
  unfold cache_is_cacheable
  simp

/-- Witness of C16: `0x08000000` is cacheable, `0x0807FFFE` is cacheable and
`0x0807FFFF` is not. -/
theorem cache_is_cacheable_iff_witness :
    0x0807FFFE < 2 ^ 32 ∧ cache_is_cacheable 0x08000000 = true ∧
    cache_is_cacheable 0x0807FFFF = false ∧
    (cache_is_cacheable 0x0807FFFE = true ↔ 0x08000000 ≤ 0x0807FFFE ∧ 0x0807FFFE < 0x0807FFFF) :=
  ⟨by decide, by decide, by decide, (cache_is_cacheable_iff 0x0807FFFE (by decide)).2⟩

/-- Evaluation for C20: the address `0x0807FFFF` lies in the 512 KB flash that
starts at `0x08000000`, and `cache_is_cacheable` is false on it. -/
theorem cache_is_cacheable_last_flash_byte :
    0x08000000 ≤ 0x0807FFFF ∧ 0x0807FFFF < 0x08000000 + 512 * 1024 ∧
    cache_is_cacheable 0x0807FFFF = false := by
  decide

/-! ## The frame of `cache_update_lru` -/

theorem same_outside_ranks_refl (set : Nat) (st : CacheState) :
    same_outside_ranks set st st :=
  ⟨fun _ => rfl, fun _ _ => rfl, rfl⟩

theorem same_outside_ranks_trans {set : Nat} {st1 st2 st3 : CacheState}
    (h12 : same_outside_ranks set st1 st2) (h23 : same_outside_ranks set st2 st3) :
    same_outside_ranks set st1 st3 :=
  ⟨fun s => (h23.1 s).trans (h12.1 s),
    fun s hs => (h23.2.1 s hs).trans (h12.2.1 s hs),
    h23.2.2.trans h12.2.2⟩

theorem store_lru_frame (st : CacheState) (set : Nat) (way : Fin CACHE_NUM_WAYS) (v : Nat) :
    same_outside_ranks set st (store_lru st set way v) := by
  refine ⟨?_, ?_, rfl⟩
  · intro s
    by_cases hs : s = set
    · simp [store_lru, hs]
    · simp [store_lru, hs]
  · intro s hs
    simp [store_lru, hs]

theorem update_lru_step_frame (set old : Nat) (st : CacheState) (way : Fin CACHE_NUM_WAYS) :
    same_outside_ranks set st (cache_update_lru_step set old st way) := by
  unfold cache_update_lru_step
  split_ifs
  · exact store_lru_frame _ _ _ _
  · exact same_outside_ranks_refl _ _

theorem update_lru_loop_frame (set old : Nat) :
    ∀ (l : List (Fin CACHE_NUM_WAYS)) (st : CacheState),
      same_outside_ranks set st (l.foldl (cache_update_lru_step set old) st) := by
  intro l
  induction l with
  | nil => intro st; exact same_outside_ranks_refl _ _
  | cons way rest ih =>
    intro st
    rw [List.foldl_cons]
    exact same_outside_ranks_trans (update_lru_step_frame set old st way) (ih _)

theorem update_lru_frame (st : CacheState) (set : Nat) (way : Fin CACHE_NUM_WAYS) :
    same_outside_ranks set st (cache_update_lru st set way) := by
  unfold cache_update_lru
  exact same_outside_ranks_trans (update_lru_loop_frame set _ _ st) (store_lru_frame _ _ _ _)

/-- Claim C17 (frame of promote): for every state, set index `s` and way index
in range, `cache_update_lru(s, way)` changes only the `lru_counters` array of
set `s`: the valid flag, the tag and the data of every line of every set, the
`lru_counters` of every other set, and the statistics counters are unchanged. -/
theorem cache_update_lru_frame (st : CacheState) (s : Nat) (way : Fin CACHE_NUM_WAYS) :
    (∀ s2 w,
      (((cache_update_lru st s way).CACHE_DATA_PTR s2).ways w).valid
        = ((st.CACHE_DATA_PTR s2).ways w).valid ∧
      (((cache_update_lru st s way).CACHE_DATA_PTR s2).ways w).tag
        = ((st.CACHE_DATA_PTR s2).ways w).tag ∧
      (((cache_update_lru st s way).CACHE_DATA_PTR s2).ways w).data
        = ((st.CACHE_DATA_PTR s2).ways w).data) ∧
    (∀ s2, s2 ≠ s → ∀ w,
      ((cache_update_lru st s way).CACHE_DATA_PTR s2).lru_counters w
        = (st.CACHE_DATA_PTR s2).lru_counters w) ∧
    (cache_update_lru st s way).g_cache_stats = st.g_cache_stats := by
  obtain ⟨hways, hranks, hstats⟩ := update_lru_frame st s way
  refine ⟨?_, ?_, hstats⟩
  · intro s2 w
    rw [hways s2]
    exact ⟨rfl, rfl, rfl⟩
  · intro s2 hs2 w
    rw [hranks s2 hs2]

/-- Witness of C17: promoting way `1` of set `1` in a state with valid lines and
counters `{10, 6, 4, 0}` leaves the line of way `3` of set `1`, the rank array
of set `2` and the counters as they were. -/
theorem cache_update_lru_frame_witness :
    (2 : Nat) ≠ 1 ∧
    (((cache_update_lru
      (state_of_lines ![empty_line, line_of_tag 0x10000, empty_line, line_of_tag 0x10000]
        ![3, 0, 1, 2] ⟨10, 6, 4, 0⟩) 1 1).CACHE_DATA_PTR 1).ways 3).valid = 1 ∧
    (∀ w, ((cache_update_lru
      (state_of_lines ![empty_line, line_of_tag 0x10000, empty_line, line_of_tag 0x10000]
        ![3, 0, 1, 2] ⟨10, 6, 4, 0⟩) 1 1).CACHE_DATA_PTR 2).lru_counters w
      = ((state_of_lines ![empty_line, line_of_tag 0x10000, empty_line, line_of_tag 0x10000]
        ![3, 0, 1, 2] ⟨10, 6, 4, 0⟩).CACHE_DATA_PTR 2).lru_counters w) ∧
    (cache_update_lru
      (state_of_lines ![empty_line, line_of_tag 0x10000, empty_line, line_of_tag 0x10000]
        ![3, 0, 1, 2] ⟨10, 6, 4, 0⟩) 1 1).g_cache_stats = ⟨10, 6, 4, 0⟩ :=
  ⟨by decide,
    ((cache_update_lru_frame
      (state_of_lines ![empty_line, line_of_tag 0x10000, empty_line, line_of_tag 0x10000]
        ![3, 0, 1, 2] ⟨10, 6, 4, 0⟩) 1 1).1 1 3).1,
    (cache_update_lru_frame
      (state_of_lines ![empty_line, line_of_tag 0x10000, empty_line, line_of_tag 0x10000]
        ![3, 0, 1, 2] ⟨10, 6, 4, 0⟩) 1 1).2.1 2 (by decide),
    (cache_update_lru_frame
      (state_of_lines ![empty_line, line_of_tag 0x10000, empty_line, line_of_tag 0x10000]
        ![3, 0, 1, 2] ⟨10, 6, 4, 0⟩) 1 1).2.2⟩

/-- Claim C19: promote preserves the relative recency order of the untouched
ways: for a set whose rank array is a permutation of `0..3`, a way index
`accessed_way` and two ways `w1`, `w2` both different from `accessed_way`,
`rank[w1] < rank[w2]` before `cache_update_lru(set, accessed_way)` if and only
if `rank[w1] < rank[w2]` after it. -/
theorem cache_update_lru_keeps_order (st : CacheState) (set : Nat)
    (accessed_way w1 w2 : Fin CACHE_NUM_WAYS) (hperm : IsRankPerm (ranks st set))
    (h1 : w1 ≠ accessed_way) (h2 : w2 ≠ accessed_way) :
    ranks st set w1 < ranks st set w2 ↔
      ranks (cache_update_lru st set accessed_way) set w1
        < ranks (cache_update_lru st set accessed_way) set w2 := by
  obtain ⟨hb, hinj⟩ := hperm
  have hb1 : ranks st set w1 < 4 := hb w1
  have hb2 : ranks st set w2 < 4 := hb w2
  have hne1 : ranks st set w1 ≠ ranks st set accessed_way := fun hc => h1 (hinj _ _ hc)
  have hne2 : ranks st set w2 ≠ ranks st set accessed_way := fun hc => h2 (hinj _ _ hc)
  rw [ranks_update_lru, ranks_update_lru, if_neg h1, if_neg h2, slide_of_lt _ _ (by omega),
    slide_of_lt _ _ (by omega)]
  split_ifs <;> omega

/-- Witness of C19: in the permutation `[2, 0, 3, 1]`, promoting way `0` (rank
`2`) leaves way `1` (rank `0`) below way `2` (rank `3`, then `2`). -/
theorem cache_update_lru_keeps_order_witness :
    IsRankPerm (ranks (state_of_ranks ![2, 0, 3, 1]) 6) ∧
    ((1 : Fin CACHE_NUM_WAYS) ≠ 0) ∧ ((2 : Fin CACHE_NUM_WAYS) ≠ 0) ∧
    (ranks (state_of_ranks ![2, 0, 3, 1]) 6 1 < ranks (state_of_ranks ![2, 0, 3, 1]) 6 2 ↔
      ranks (cache_update_lru (state_of_ranks ![2, 0, 3, 1]) 6 0) 6 1
        < ranks (cache_update_lru (state_of_ranks ![2, 0, 3, 1]) 6 0) 6 2) :=
  ⟨by decide, by decide, by decide,
    cache_update_lru_keeps_order (state_of_ranks ![2, 0, 3, 1]) 6 0 1 2 (by decide)
      (by decide) (by decide)⟩

/-! ## The statistics along a run -/

theorem run_call_stats (inner : Nat) (st st1 : CacheState) (c : cache_call)
    (h : run_call inner st c = some st1) : st1.g_cache_stats = st.g_cache_stats := by
  cases c with
  | lookup addr =>
    simp only [run_call, Option.some.injEq] at h
    rw [← h]
    rfl
  | update_lru set way =>
    simp only [run_call, Option.some.injEq] at h
    rw [← h]
    exact (update_lru_frame st set way).2.2
  | find_lru_way set =>
    simp only [run_call] at h
    cases hf : cache_find_lru_way st set with
    | none => rw [hf] at h; exact absurd h (by simp)
    | some w =>
      rw [hf] at h
      simp only [Option.some.injEq] at h
      rw [← h]

theorem run_calls_stats (inner : Nat) :
    ∀ (calls : List cache_call) (st st1 : CacheState),
      run_calls inner st calls = some st1 → st1.g_cache_stats = st.g_cache_stats := by
  intro calls
  induction calls with
  | nil =>
    intro st st1 h
    simp only [run_calls, Option.some.injEq] at h
    rw [← h]
  | cons c rest ih =>
    intro st st1 h
    unfold run_calls at h
    cases hc : run_call inner st c with
    | none => rw [hc] at h; exact absurd h (by simp)
    | some st2 =>
      rw [hc] at h
      exact (ih st2 st1 h).trans (run_call_stats inner st st2 c hc)

/-- Claim C11: in every state reachable from `cache_init()` by a finite sequence
of `cache_lookup`, `cache_update_lru` and `cache_find_lru_way` calls, the
statistics satisfy `hits + misses == total_accesses`. -/
theorem stats_invariant (CACHE_NUM_SETS inner : Nat) (st0 st : CacheState)
    (calls : List cache_call)
    (h : run_calls inner (cache_init CACHE_NUM_SETS st0) calls = some st) :
    st.g_cache_stats.hits + st.g_cache_stats.misses = st.g_cache_stats.total_accesses := by
  rw [run_calls_stats inner calls _ st h]
  rfl

/-- Witness of C11: from a state with counters `{10, 6, 3, 0}`, `cache_init`
followed by a lookup, a promotion, a victim selection and a second lookup. -/
theorem stats_invariant_witness :
    ∃ st,
      run_calls 5
        (cache_init CACHE_NUM_SET
          (state_of_lines ![empty_line, line_of_tag 0x10000, empty_line, line_of_tag 0x10000]
            ![3, 0, 1, 2] ⟨10, 6, 3, 0⟩))
        [cache_call.lookup 0x08000040, cache_call.update_lru 1 2,
          cache_call.find_lru_way 1, cache_call.lookup 0x08000840] = some st ∧
      st.g_cache_stats.hits + st.g_cache_stats.misses = st.g_cache_stats.total_accesses :=
  (Option.isSome_iff_exists.mp
    (by set_option maxRecDepth 4000 in decide :
      (run_calls 5
        (cache_init CACHE_NUM_SET
          (state_of_lines ![empty_line, line_of_tag 0x10000, empty_line, line_of_tag 0x10000]
            ![3, 0, 1, 2] ⟨10, 6, 3, 0⟩))
        [cache_call.lookup 0x08000040, cache_call.update_lru 1 2,
          cache_call.find_lru_way 1, cache_call.lookup 0x08000840]).isSome = true)).elim
    fun st hst => ⟨st, hst, stats_invariant CACHE_NUM_SET 5 _ st _ hst⟩

/-! ## The set index mask -/

/-- The bits of the set index mask: bit `i` is set when `i` is below both `32`
and the value of the inner identifier. -/
theorem set_index_mask_testBit (inner i : Nat) :
    (CACHE_SET_INDEX_MASK inner).testBit i = (decide (i < 32) && decide (i < inner)) := by
  unfold CACHE_SET_INDEX_MASK
  rw [Nat.testBit_mod_two_pow, Nat.shiftLeft_eq, Nat.one_mul, Nat.testBit_two_pow_sub_one]

/-- When the inner identifier of the mask is at least `CACHE_SET_INDEX_BITS`, the
three fields of a 32-bit address rebuild the address. -/
theorem recompose_of_bits (inner a : Nat) (ha : a < 2 ^ 32) (h5 : CACHE_SET_INDEX_BITS ≤ inner) :
    recompose (cache_get_tag a) (cache_get_set_index inner a) (cache_get_offset a) = a := by
  have h5n : 5 ≤ inner := h5
  apply Nat.eq_of_testBit_eq
  intro i
  unfold recompose cache_get_tag cache_get_set_index cache_get_offset
  have hmask : CACHE_OFFSET_MASK = 2 ^ 6 - 1 := by decide
  rw [hmask]
  simp only [Nat.testBit_or, Nat.testBit_mod_two_pow, Nat.testBit_shiftLeft, Nat.testBit_and,
    Nat.testBit_shiftRight, set_index_mask_testBit, Nat.testBit_two_pow_sub_one,
    CACHE_OFFSET_BITS, CACHE_SET_INDEX_BITS]
  by_cases h6 : i < 6
  · have e1 : ¬ i ≥ 6 + 5 := by omega
    have e2 : ¬ i ≥ 6 := by omega
    simp [h6, e1, e2]
  · by_cases h11 : i < 11
    · have e1 : ¬ i ≥ 6 + 5 := by omega
      have e2 : i ≥ 6 := by omega
      have e3 : 6 + (i - 6) = i := by omega
      have e4 : i - 6 < 32 := by omega
      have e5 : i - 6 < inner := by omega
      have e6 : i < 32 := by omega
      simp [h6, e1, e2, e3, e4, e5, e6]
    · by_cases h32 : i < 32
      · have e1 : i ≥ 6 + 5 := by omega
        have e3 : 6 + 5 + (i - (6 + 5)) = i := by omega
        have e6 : 6 + (i - 6) = i := by omega
        simp only [h6, h32, e1, e3, e6, decide_True, decide_False, Bool.true_and,
          Bool.and_false, Bool.or_false]
        cases a.testBit i <;> simp
      · have hlt : a < 2 ^ i := lt_of_lt_of_le ha (Nat.pow_le_pow_right (by decide) (by omega))
        rw [Nat.testBit_lt_two_pow hlt]
        simp [h32]

/-- When the inner identifier of the mask is at most `CACHE_SET_INDEX_BITS`, the
set index is below the number of sets. -/
theorem set_index_lt_of_le (inner a : Nat) (h : inner ≤ CACHE_SET_INDEX_BITS) :
    cache_get_set_index inner a < CACHE_NUM_SET := by
  have h5 : inner ≤ 5 := h
  have hpow : 2 ^ inner ≤ 2 ^ 5 := Nat.pow_le_pow_right (by decide) h5
  have hmask : CACHE_SET_INDEX_MASK inner ≤ 31 := by
    unfold CACHE_SET_INDEX_MASK
    rw [Nat.shiftLeft_eq, Nat.one_mul]
    have := Nat.mod_le (2 ^ inner - 1) (2 ^ 32)
    omega
  have hle : cache_get_set_index inner a ≤ CACHE_SET_INDEX_MASK inner := Nat.and_le_right
  show cache_get_set_index inner a < 32
  omega

/-- When the inner identifier of the mask is above `CACHE_SET_INDEX_BITS`, the
set index of `0x800` is `32`. -/
theorem set_index_of_gt (inner : Nat) (h : CACHE_SET_INDEX_BITS < inner) :
    cache_get_set_index inner 0x800 = 32 := by
  have h5 : 5 < inner := h
  apply Nat.eq_of_testBit_eq
  intro i
  unfold cache_get_set_index
  have e : (0x800 : Nat) >>> CACHE_OFFSET_BITS = 2 ^ 5 := by decide
  have e32 : (32 : Nat) = 2 ^ 5 := by decide
  rw [e, e32, Nat.testBit_and, set_index_mask_testBit, Nat.testBit_two_pow]
  by_cases hi : 5 = i
  · subst hi
    simp [h5]
  · simp [hi]

/-- When the inner identifier of the mask is below `CACHE_SET_INDEX_BITS`, the
fields of `0x400` rebuild `0`. -/
theorem recompose_of_lt (inner : Nat) (h : inner < CACHE_SET_INDEX_BITS) :
    recompose (cache_get_tag 0x400) (cache_get_set_index inner 0x400) (cache_get_offset 0x400)
      = 0 := by
  have h5 : inner < 5 := h
  have hs : cache_get_set_index inner 0x400 = 0 := by
    apply Nat.eq_of_testBit_eq
    intro i
    unfold cache_get_set_index
    have e : (0x400 : Nat) >>> CACHE_OFFSET_BITS = 2 ^ 4 := by decide
    rw [e, Nat.testBit_and, set_index_mask_testBit, Nat.testBit_two_pow]
    by_cases hi : 4 = i
    · subst hi
      have : ¬ 4 < inner := by omega
      simp [this]
    · simp [hi]
  rw [hs]
  decide

/-- The set index bound and the lossless decomposition hold together, for all
32-bit addresses, exactly when the inner identifier of `CACHE_SET_INDEX_MASK`
has the value of `CACHE_SET_INDEX_BITS`, the constant the macro body does not
name. -/
theorem mask_identifier_must_be_bits (inner : Nat) :
    (∀ a, a < 2 ^ 32 →
      cache_get_set_index inner a < CACHE_NUM_SET ∧
      recompose (cache_get_tag a) (cache_get_set_index inner a) (cache_get_offset a) = a) ↔
    inner = CACHE_SET_INDEX_BITS := by
  constructor
  · intro h
    rcases Nat.lt_trichotomy inner CACHE_SET_INDEX_BITS with hlt | heq | hgt
    · have h1 := (h 0x400 (by decide)).2
      rw [recompose_of_lt inner hlt] at h1
      exact absurd h1 (by decide)
    · exact heq
    · have h1 := (h 0x800 (by decide)).1
      rw [set_index_of_gt inner hgt] at h1
      exact absurd h1 (by decide)
  · intro h a ha
    exact ⟨set_index_lt_of_le inner a (le_of_eq h), recompose_of_bits inner a ha (le_of_eq h.symm)⟩

end LruCache
